import Mathlib

/-!
# The Spotify plugin of quadlek: OAuth handshake and now-playing query

A shallow embedding of `plugins/spotify/spotify.go`.

* Go strings and byte slices are lists of bytes; `str` turns a source literal
  into its bytes.
* `int64` values are integers reduced to the signed 64-bit range by
  `wrapInt64` wherever the source does arithmetic on them.
* The external collaborators (clock, UUID generator, OAuth client, Spotify
  client, whether the store accepts a write) are oracles carried by each
  message; every call to one of them that is visible from outside is recorded
  as an `Event`.
* The two message loops are folds over the messages received before the
  context is cancelled.
* Log entries, `spew.Dump` output and the closing of the request body are not
  modelled; `Register` only names the two handlers.
-/

namespace Spotify

/-! ## Bytes and strings -/

/-- A Go `byte`. -/
abbrev Byte := Fin 256

/-- A Go `[]byte`. -/
abbrev Bytes := List Byte

/-- A Go `string`: an immutable sequence of bytes. -/
abbrev GoString := List Byte

/-- The conversion `uint8(n)`. -/
def byte (n : Nat) : Byte := ⟨n % 256, Nat.mod_lt n (by decide)⟩

/-- The bytes of a string literal of the source. -/
def str (s : String) : GoString := s.toUTF8.data.toList.map (fun b => b.val)

/-- Go `error` values that occur in the plugin. -/
inductive Err where
  /-- The value `io.ErrUnexpectedEOF`: the buffer ends inside a field. -/
  | unexpectedEOF
  /-- A varint that does not end within ten bytes. -/
  | overflow
  /-- A field number of zero. -/
  | illegalTag
  /-- A wire type that the message does not allow at this field. -/
  | badWireType
  /-- The value `bolt.ErrKeyRequired`. -/
  | keyRequired
  /-- The value `bolt.ErrKeyTooLarge`. -/
  | keyTooLarge
  /-- The value `bolt.ErrValueTooLarge`. -/
  | valueTooLarge
  /-- The value `errors.New("Received expired auth request")`. -/
  | expired
  /-- An error returned by an external collaborator. -/
  | external (msg : String)
  deriving DecidableEq, Repr

/-! ## 64-bit integers -/

/-- The conversion `uint64(x)` of an `int64`. -/
def toUint64 (x : Int) : Nat := (x % 2 ^ 64).toNat

/-- The conversion `int64(u)` of a `uint64`. -/
def toInt64 (u : Nat) : Int :=
  if u % 2 ^ 64 < 2 ^ 63 then ((u % 2 ^ 64 : Nat) : Int) else ((u % 2 ^ 64 : Nat) : Int) - 2 ^ 64

/-- The result of `int64` arithmetic: the integer reduced to the signed 64-bit range. -/
def wrapInt64 (x : Int) : Int := toInt64 (toUint64 x)

/-- The largest `int64`. -/
def maxInt64 : Int := 2 ^ 63 - 1

/-- The smallest `int64`. -/
def minInt64 : Int := -(2 ^ 63)

/-- Membership in the range of `int64`. -/
def isInt64 (x : Int) : Prop := minInt64 ≤ x ∧ x ≤ maxInt64

instance (x : Int) : Decidable (isInt64 x) := by unfold isInt64; infer_instance

/-! ## Time -/

/-- A `time.Time`, as the instant it denotes: seconds since the Unix epoch and
nanoseconds within the second. -/
structure Time where
  sec : Int
  nsec : Int
  deriving DecidableEq, Repr

/-- The function `time.Unix(sec, nsec)`. -/
def Time.Unix (sec nsec : Int) : Time :=
  if nsec < 0 ∨ nsec ≥ 1000000000 then
    let n := Int.tdiv nsec 1000000000
    let sec1 := wrapInt64 (sec + n)
    let nsec1 := nsec - n * 1000000000
    if nsec1 < 0 then ⟨wrapInt64 (sec1 - 1), nsec1 + 1000000000⟩ else ⟨sec1, nsec1⟩
  else ⟨sec, nsec⟩

/-- The method `t.UnixNano()`: nanoseconds since the epoch, in `int64` arithmetic. -/
def Time.UnixNano (t : Time) : Int := wrapInt64 (t.sec * 1000000000 + t.nsec)

/-- The constant `int64(time.Minute*15)`, in nanoseconds. -/
def fifteenMinutes : Int := 60 * 1000000000 * 15

/-! ## The messages of `spotify.proto` and `oauth2.Token` -/

/-- The type `oauth2.Token`, with the fields the plugin uses. -/
structure OauthToken where
  AccessToken : GoString
  TokenType : GoString
  RefreshToken : GoString
  Expiry : Time
  deriving DecidableEq, Repr

/-- Modelled from the spec: the message `Token` of the generated `spotify.pb.go`,
which is not among the sources. It is the "access token, token
type, refresh token, absolute expiry timestamp", under the field names the
source uses, of the Token Record. -/
structure Token where
  AccessToken : GoString
  TokenType : GoString
  RefreshToken : GoString
  ExpiresAt : Int
  deriving DecidableEq, Repr

/-- Modelled from the spec: the message `AuthToken` of the generated
`spotify.pb.go`, which is not among the sources: the stored Token Record, whose
"token field is populated" or not. `Token = none` is the nil pointer. -/
structure AuthToken where
  Token : Option Token
  deriving DecidableEq, Repr

/-- Modelled from the spec: the message `AuthState` of the generated
`spotify.pb.go`, which is not among the sources. It is the "unique state identifier, originating user identifier, a reply
destination handle and an absolute expiry" of the Pending Authorization State,
under the field names the source uses. -/
structure AuthState where
  Id : GoString
  UserId : GoString
  ResponseUrl : GoString
  ExpireTime : Int
  deriving DecidableEq, Repr

/-- The zero value `Token{}`. -/
def Token.zero : Token := ⟨[], [], [], 0⟩

/-- The zero value `AuthToken{}`. -/
def AuthToken.zero : AuthToken := ⟨none⟩

/-- The zero value `AuthState{}`. -/
def AuthState.zero : AuthState := ⟨[], [], [], 0⟩

/-- The method `(*AuthToken).GetOauthToken`; a nil `Token` pointer panics (`none`). -/
def AuthToken.GetOauthToken (at_ : AuthToken) : Option OauthToken :=
  match at_.Token with
  | none => none
  | some t =>
    some { AccessToken := t.AccessToken
           TokenType := t.TokenType
           RefreshToken := t.RefreshToken
           Expiry := Time.Unix t.ExpiresAt 0 }

/-! ## The protocol-buffer wire format

The generated code `spotify.pb.go` and the library behind `proto.Marshal` and
`proto.Unmarshal` are not part of the sources; the definitions of this section
follow the proto3 wire format for the messages above, with the fields numbered
in the order in which the source lists them. -/

/-- The loop of `EncodeVarint`: seven bits per byte, least significant group first. -/
def encodeVarintAux : Nat → Nat → Bytes
  | 0, _ => []
  | fuel + 1, x =>
    if x < 128 then [byte x] else byte (x % 128 + 128) :: encodeVarintAux fuel (x / 128)

/-- The varint of a `uint64`; it has at most ten bytes. -/
def EncodeVarint (x : Nat) : Bytes := encodeVarintAux 10 (x % 2 ^ 64)

/-- The loop of `DecodeVarint`: at most `fuel` bytes are read. -/
def decodeVarintAux : Nat → Nat → Bytes → Except Err (Nat × Bytes)
  | 0, _, _ => .error .overflow
  | _ + 1, _, [] => .error .unexpectedEOF
  | fuel + 1, shift, b :: rest =>
    if b.val < 128 then .ok (b.val * 2 ^ shift, rest)
    else
      match decodeVarintAux fuel (shift + 7) rest with
      | .ok (x, rest1) => .ok (b.val % 128 * 2 ^ shift + x, rest1)
      | .error e => .error e

/-- Reads a varint off the front of the buffer, as a `uint64`. -/
def DecodeVarint (buf : Bytes) : Except Err (Nat × Bytes) :=
  match decodeVarintAux 10 0 buf with
  | .ok (x, rest) => .ok (x % 2 ^ 64, rest)
  | .error e => .error e

/-- The payload of one field on the wire. -/
inductive WireVal where
  | varint (n : Nat)
  | fixed64 (b : Bytes)
  | bytes (b : Bytes)
  | fixed32 (b : Bytes)
  deriving DecidableEq, Repr

/-- Splits `n` bytes off the front of the buffer. -/
def takeBytes (n : Nat) (buf : Bytes) : Except Err (Bytes × Bytes) :=
  if n ≤ buf.length then .ok (buf.take n, buf.drop n) else .error .unexpectedEOF

/-- Reads one field: its number, its payload and the rest of the buffer. -/
def readField (buf : Bytes) : Except Err (Nat × WireVal × Bytes) :=
  match DecodeVarint buf with
  | .error e => .error e
  | .ok (u, rest) =>
    if u / 8 = 0 then .error .illegalTag
    else
      match u % 8 with
      | 0 =>
        match DecodeVarint rest with
        | .ok (n, rest1) => .ok (u / 8, .varint n, rest1)
        | .error e => .error e
      | 1 =>
        match takeBytes 8 rest with
        | .ok (b, rest1) => .ok (u / 8, .fixed64 b, rest1)
        | .error e => .error e
      | 2 =>
        match DecodeVarint rest with
        | .error e => .error e
        | .ok (n, rest1) =>
          match takeBytes n rest1 with
          | .ok (b, rest2) => .ok (u / 8, .bytes b, rest2)
          | .error e => .error e
      | 5 =>
        match takeBytes 4 rest with
        | .ok (b, rest1) => .ok (u / 8, .fixed32 b, rest1)
        | .error e => .error e
      | _ => .error .badWireType

/-- The decoding loop of `proto.Unmarshal`: fields are read one after the other and
handed to `apply`; on an error the message decoded so far is returned with it. -/
def decodeLoop {M : Type} (apply : M → Nat → WireVal → M × Option Err) :
    Nat → Bytes → M → M × Option Err
  | 0, _, m => (m, none)
  | fuel + 1, buf, m =>
    if buf = [] then (m, none)
    else
      match readField buf with
      | .error e => (m, some e)
      | .ok (num, v, rest) =>
        match apply m num v with
        | (m1, some e) => (m1, some e)
        | (m1, none) => decodeLoop apply fuel rest m1

/-- The key of a field: number and wire type. -/
def encodeTag (num wire : Nat) : Bytes := EncodeVarint (num * 8 + wire)

/-- A proto3 `string` field; the empty string is not written. -/
def encodeString (num : Nat) (s : GoString) : Bytes :=
  if s = [] then [] else encodeTag num 2 ++ EncodeVarint s.length ++ s

/-- A proto3 `int64` field; zero is not written. -/
def encodeInt64 (num : Nat) (x : Int) : Bytes :=
  if x = 0 then [] else encodeTag num 0 ++ EncodeVarint (toUint64 x)

/-- An embedded message field. -/
def encodeMessage (num : Nat) (body : Bytes) : Bytes :=
  encodeTag num 2 ++ EncodeVarint body.length ++ body

/-- Modelled from the spec: the "serialized Token Record" of `spotify.proto`, which
is not among the sources; the fields are numbered 1 to 4 in the order in which
the source lists them. -/
def Token.encode (t : Token) : Bytes :=
  encodeString 1 t.AccessToken ++ encodeString 2 t.TokenType ++
    encodeString 3 t.RefreshToken ++ encodeInt64 4 t.ExpiresAt

/-- Sets one decoded field of a `Token`, numbered as in `Token.encode`; unknown
fields are skipped. -/
def Token.apply (t : Token) (num : Nat) (v : WireVal) : Token × Option Err :=
  match num, v with
  | 1, .bytes b => ({ t with AccessToken := b }, none)
  | 2, .bytes b => ({ t with TokenType := b }, none)
  | 3, .bytes b => ({ t with RefreshToken := b }, none)
  | 4, .varint n => ({ t with ExpiresAt := toInt64 n }, none)
  | 1, _ => (t, some .badWireType)
  | 2, _ => (t, some .badWireType)
  | 3, _ => (t, some .badWireType)
  | 4, _ => (t, some .badWireType)
  | _, _ => (t, none)

/-- Modelled from the spec: the "serialized Token Record" as it is stored, the
`Token` message embedded as field 1; a nil `Token` is not written. -/
def AuthToken.encode (a : AuthToken) : Bytes :=
  match a.Token with
  | none => []
  | some t => encodeMessage 1 t.encode

/-- Sets one decoded field of an `AuthToken`; a repeated `Token` field is merged
into the one already decoded. -/
def AuthToken.apply (a : AuthToken) (num : Nat) (v : WireVal) : AuthToken × Option Err :=
  match num, v with
  | 1, .bytes b =>
    match decodeLoop Token.apply b.length b (a.Token.getD Token.zero) with
    | (t, e) => ({ a with Token := some t }, e)
  | 1, _ => (a, some .badWireType)
  | _, _ => (a, none)

/-- Modelled from the spec: the "serialized Pending Authorization State" of
`spotify.proto`, which is not among the sources; the fields are numbered 1 to 4
in the order in which the source lists them. -/
def AuthState.encode (s : AuthState) : Bytes :=
  encodeString 1 s.Id ++ encodeString 2 s.UserId ++
    encodeString 3 s.ResponseUrl ++ encodeInt64 4 s.ExpireTime

/-- Sets one decoded field of an `AuthState`, numbered as in `AuthState.encode`;
unknown fields are skipped. -/
def AuthState.apply (s : AuthState) (num : Nat) (v : WireVal) : AuthState × Option Err :=
  match num, v with
  | 1, .bytes b => ({ s with Id := b }, none)
  | 2, .bytes b => ({ s with UserId := b }, none)
  | 3, .bytes b => ({ s with ResponseUrl := b }, none)
  | 4, .varint n => ({ s with ExpireTime := toInt64 n }, none)
  | 1, _ => (s, some .badWireType)
  | 2, _ => (s, some .badWireType)
  | 3, _ => (s, some .badWireType)
  | 4, _ => (s, some .badWireType)
  | _, _ => (s, none)

/-- The call `proto.Marshal(authToken)`. -/
def marshalAuthToken (a : AuthToken) : Except Err Bytes := .ok a.encode

/-- The call `proto.Marshal(authState)`. -/
def marshalAuthState (s : AuthState) : Except Err Bytes := .ok s.encode

/-- The call `proto.Unmarshal(buf, authToken)` on a fresh `&AuthToken{}`: the message
as far as it was decoded, and the error if there is one. -/
def unmarshalAuthToken (buf : Bytes) : AuthToken × Option Err :=
  decodeLoop AuthToken.apply buf.length buf AuthToken.zero

/-- The call `proto.Unmarshal(buf, authState)` on a fresh `&AuthState{}`. -/
def unmarshalAuthState (buf : Bytes) : AuthState × Option Err :=
  decodeLoop AuthState.apply buf.length buf AuthState.zero

/-! ## The store -/

/-- The bolt bucket of the plugin: its key/value pairs, at most one pair per key in
every bucket that `Put` and `Delete` build. -/
structure Bucket where
  entries : List (Bytes × Bytes)
  deriving DecidableEq, Repr

/-- The value stored under a key, if the key is present. -/
def Bucket.lookup (b : Bucket) (key : Bytes) : Option Bytes :=
  (b.entries.find? (fun kv => kv.1 = key)).map (fun kv => kv.2)

/-- The call `bkt.Get(key)`: the stored value, or nil (no bytes) when the key is absent. -/
def Bucket.Get (b : Bucket) (key : Bytes) : Bytes :=
  (b.lookup key).getD []

/-- The bucket with `key` bound to `value` and every other key as before. -/
def Bucket.insert (b : Bucket) (key value : Bytes) : Bucket :=
  ⟨(key, value) :: b.entries.filter (fun kv => kv.1 ≠ key)⟩

/-- The constant `bolt.MaxKeySize`. -/
def MaxKeySize : Nat := 32768

/-- The constant `bolt.MaxValueSize`. -/
def MaxValueSize : Nat := 2 ^ 31 - 2

/-- The call `bkt.Put(key, value)`. `fault` is the error with which the store
refuses the write for a reason of its own, if it does; a key that is empty or
longer than `MaxKeySize` and a value longer than `MaxValueSize` are refused. -/
def Bucket.Put (fault : Option Err) (b : Bucket) (key value : Bytes) : Except Err Bucket :=
  match fault with
  | some err => .error err
  | none =>
    if key.length = 0 then .error .keyRequired
    else if key.length > MaxKeySize then .error .keyTooLarge
    else if value.length > MaxValueSize then .error .valueTooLarge
    else .ok (b.insert key value)

/-- The call `bkt.Delete(key)`, whose error the source ignores. -/
def Bucket.Delete (b : Bucket) (key : Bytes) : Bucket :=
  ⟨b.entries.filter (fun kv => kv.1 ≠ key)⟩

/-! ## Messages, replies and events -/

/-- The type `quadlek.CommandResp`. -/
structure CommandResp where
  Text : GoString
  InChannel : Bool
  deriving DecidableEq, Repr

/-- The slash command of a `quadlek.CommandMsg`, with the fields the plugin reads. -/
structure Command where
  UserId : GoString
  ResponseUrl : GoString
  deriving DecidableEq, Repr

/-- What a handler does that is visible outside the store. -/
inductive Event where
  /-- A send on the channel `cmdMsg.Command.Reply()`. -/
  | reply (cmd : Command) (resp : CommandResp)
  /-- A call `Bot.RespondToSlashCommand(url, resp)`. -/
  | respond (url : GoString) (resp : CommandResp)
  /-- A call `client.PlayerCurrentlyPlaying()` with a client built from the token. -/
  | currentlyPlaying (token : OauthToken)
  /-- A call `auth.Token(state, request)`, the OAuth token exchange. -/
  | tokenExchange (state : GoString)
  deriving DecidableEq, Repr

/-- How a function call ends. -/
inductive Ret where
  /-- The call returns a nil error. -/
  | nil
  /-- The call returns an error. -/
  | error (e : Err)
  /-- The call panics. -/
  | panic
  deriving DecidableEq, Repr

/-- The bucket as a call leaves it, the events of the call in order, and how it ended. -/
structure Outcome where
  bkt : Bucket
  out : List Event
  ret : Ret
  deriving DecidableEq, Repr

/-- A message on the command channel, with what the collaborators answer while
it is handled. -/
structure CommandMsg where
  Command : Command
  /-- The value of `time.Now().UnixNano()`. -/
  now : Int
  /-- The value of `uuid.NewV4().String()`. -/
  stateId : GoString
  /-- The method `auth.AuthURL` of the authenticator of `startAuthFlow`. -/
  authURL : GoString → GoString
  /-- The error of `bkt.Put`, if the store refuses the write. -/
  putErr : Option Err
  /-- The call `client.PlayerCurrentlyPlaying()`: an error, or `playing.Item`,
  which is nil when nothing plays and has the `URI` of the track otherwise. -/
  currentlyPlaying : OauthToken → Except Err (Option GoString)

/-- The query of the request URL, `url.Values`: keys with their values. -/
structure Request where
  query : List (GoString × List GoString)
  deriving DecidableEq, Repr

/-- The map access `query[key]`. -/
def Request.Query (r : Request) (key : GoString) : Option (List GoString) :=
  (r.query.find? (fun kv => kv.1 = key)).map (fun kv => kv.2)

/-- A message on the webhook channel, with what the collaborators answer while
it is handled. -/
structure WebhookMsg where
  Request : Request
  /-- The value of `time.Now().UnixNano()`. -/
  now : Int
  /-- The call `auth.Token(state, whMsg.Request)`. -/
  exchange : GoString → Except Err OauthToken
  /-- The error of `bkt.Put`, if the store refuses the write. -/
  putErr : Option Err

/-- Modelled from the spec: the method `Store.UpdateRaw` of package `quadlek`, which
is not among the sources. "All operations execute inside a single atomic
transaction scoped to one incoming message, guaranteeing a handler observes a
consistent snapshot and that its writes are all-or-nothing": the function runs
on the bucket of the plugin, its writes are kept when it returns nil and dropped
otherwise. Replies are not part of the store and stay sent. The commit itself is
taken to succeed. -/
def UpdateRaw (store : Bucket) (updateFunc : Bucket → Outcome) : Outcome :=
  let r := updateFunc store
  match r.ret with
  | .nil => r
  | _ => { r with bkt := store }

/-! ## The authorization flow and the now-playing command -/

/-- The function `startAuthFlow`: the authorization URL for a state identifier. -/
def startAuthFlow (authURL : GoString → GoString) (stateId : GoString) : GoString :=
  authURL stateId

/-- The key of the Token Record of a user. -/
def authTokenKey (userId : GoString) : Bytes := str "authtoken-" ++ userId

/-- The key of a Pending Authorization State. -/
def authStateKey (stateId : GoString) : Bytes := str "authstate-" ++ stateId

/-- The Pending Authorization State that `nowPlaying` builds for a user without a
token: the literal `&AuthState{...}` of the source. -/
def pendingAuthState (cmdMsg : CommandMsg) : AuthState :=
  { Id := cmdMsg.stateId
    UserId := cmdMsg.Command.UserId
    ResponseUrl := cmdMsg.Command.ResponseUrl
    ExpireTime := wrapInt64 (cmdMsg.now + fifteenMinutes) }

/-- The function that `nowPlaying` passes to `UpdateRaw`. -/
def nowPlayingTx (cmdMsg : CommandMsg) (bkt : Bucket) : Outcome :=
  let authTokenBytes := bkt.Get (authTokenKey cmdMsg.Command.UserId)
  match unmarshalAuthToken authTokenBytes with
  | (_, some err) => ⟨bkt, [], .error err⟩
  | (authToken, none) =>
    match authToken.Token with
    | none =>
      let stateId := cmdMsg.stateId
      let authUrl := startAuthFlow cmdMsg.authURL stateId
      let authState := pendingAuthState cmdMsg
      match marshalAuthState authState with
      | .error err => ⟨bkt, [], .error err⟩
      | .ok authStateBytes =>
        match bkt.Put cmdMsg.putErr (authStateKey stateId) authStateBytes with
        | .error err =>
          ⟨bkt, [.reply cmdMsg.Command
            ⟨str "There was an error authenticating to Spotify.", false⟩], .error err⟩
        | .ok bkt1 =>
          ⟨bkt1, [.reply cmdMsg.Command
            ⟨str "You need to be authenticate to Spotify to continue. Please visit " ++
              authUrl ++ str " to do this.", false⟩], .nil⟩
    | some _ =>
      match authToken.GetOauthToken with
      | none => ⟨bkt, [], .panic⟩
      | some token =>
        match cmdMsg.currentlyPlaying token with
        | .error err =>
          ⟨bkt, [.currentlyPlaying token,
            .reply cmdMsg.Command ⟨str "Unable to get currently playing.", false⟩], .error err⟩
        | .ok none => ⟨bkt, [.currentlyPlaying token], .panic⟩
        | .ok (some uri) =>
          ⟨bkt, [.currentlyPlaying token,
            .reply cmdMsg.Command
              ⟨str "<@" ++ cmdMsg.Command.UserId ++ str "> is listening to " ++ uri, true⟩],
            .nil⟩

/-- One round of the loop of `nowPlaying`: the handling of one command message. -/
def nowPlayingMsg (cmdMsg : CommandMsg) (store : Bucket) : Outcome :=
  let r := UpdateRaw store (nowPlayingTx cmdMsg)
  match r.ret with
  | .error _ =>
    { r with out := r.out ++
        [.respond cmdMsg.Command.ResponseUrl ⟨str "Unable to run now playing.", false⟩] }
  | _ => r

/-! ## The authorization webhook -/

/-- The Token Record that `spotifyAuthorizeWebhook` builds from the exchanged
token: the literal `&AuthToken{...}` of the source. -/
def tokenRecord (token : OauthToken) : AuthToken :=
  { Token := some
      { AccessToken := token.AccessToken
        TokenType := token.TokenType
        RefreshToken := token.RefreshToken
        ExpiresAt := token.Expiry.UnixNano } }

/-- The function that `spotifyAuthorizeWebhook` passes to `UpdateRaw`; `stateId0`
is `stateId[0]`. -/
def spotifyAuthorizeWebhookTx (whMsg : WebhookMsg) (stateId0 : GoString) (bkt : Bucket) :
    Outcome :=
  let authStateBytes := bkt.Get (authStateKey stateId0)
  match unmarshalAuthState authStateBytes with
  | (authState, some err) =>
    ⟨bkt, [.respond authState.ResponseUrl
      ⟨str "Sorry! There was an error logging you into Spotify.", false⟩], .error err⟩
  | (authState, none) =>
    let now := whMsg.now
    if authState.ExpireTime < now then
      ⟨bkt.Delete (authStateKey stateId0),
        [.respond authState.ResponseUrl
          ⟨str "Sorry! There was an error logging you into Spotify.", false⟩],
        .error .expired⟩
    else
      match whMsg.exchange stateId0 with
      | .error err =>
        ⟨bkt, [.tokenExchange stateId0,
          .respond authState.ResponseUrl
            ⟨str "Sorry! There was an error logging you into Spotify.", false⟩], .error err⟩
      | .ok token =>
        let authToken := tokenRecord token
        let tokenBytes :=
          match marshalAuthToken authToken with
          | .ok b => b
          | .error _ => []
        match bkt.Put whMsg.putErr (authTokenKey authState.UserId) tokenBytes with
        | .error err =>
          ⟨bkt, [.tokenExchange stateId0,
            .respond authState.ResponseUrl
              ⟨str "Sorry! There was an error logging you into Spotify.", false⟩], .error err⟩
        | .ok bkt1 =>
          ⟨bkt1, [.tokenExchange stateId0,
            .respond authState.ResponseUrl
              ⟨str "Successfully logged into Spotify. Try your command again please.", false⟩],
            .nil⟩

/-- One round of the loop of `spotifyAuthorizeWebhook`: the handling of one webhook
message. A request without `state` is dropped before the store is touched. -/
def spotifyAuthorizeWebhookMsg (whMsg : WebhookMsg) (store : Bucket) : Outcome :=
  match whMsg.Request.Query (str "state") with
  | none => ⟨store, [], .nil⟩
  | some [] => ⟨store, [], .panic⟩
  | some (stateId0 :: _) => UpdateRaw store (spotifyAuthorizeWebhookTx whMsg stateId0)

/-! ## The two loops -/

/-- The store of the plugin and everything the handlers have sent so far. -/
structure Sys where
  store : Bucket
  out : List Event
  deriving DecidableEq, Repr

/-- The state after one handled message. -/
def Sys.after (s : Sys) (r : Outcome) : Sys :=
  { store := r.bkt, out := s.out ++ r.out }

/-- The loop of `nowPlaying` over the command messages that arrive before the
context is done; a panic ends it. -/
def nowPlaying : List CommandMsg → Sys → Sys
  | [], s => s
  | cmdMsg :: rest, s =>
    let r := nowPlayingMsg cmdMsg s.store
    if r.ret = .panic then s.after r else nowPlaying rest (s.after r)

/-- The loop of `spotifyAuthorizeWebhook` over the webhook messages that arrive
before the context is done; a panic ends it. -/
def spotifyAuthorizeWebhook : List WebhookMsg → Sys → Sys
  | [], s => s
  | whMsg :: rest, s =>
    let r := spotifyAuthorizeWebhookMsg whMsg s.store
    if r.ret = .panic then s.after r else spotifyAuthorizeWebhook rest (s.after r)

/-! ## Properties named by the claims, and sample inputs -/

/-- The user has no stored token: the key `authtoken-<userId>` is absent, or its
value decodes to a record whose `Token` is unset. -/
def noStoredToken (bkt : Bucket) (userId : GoString) : Prop :=
  bkt.lookup (authTokenKey userId) = none ∨
    ∃ bytes a, bkt.lookup (authTokenKey userId) = some bytes ∧
      unmarshalAuthToken bytes = (a, none) ∧ a.Token = none

/-- Some reply to the command has a text that contains the authorization URL built
for the state identifier of the message. -/
def repliesWithAuthURL (cmdMsg : CommandMsg) (out : List Event) : Prop :=
  ∃ resp, Event.reply cmdMsg.Command resp ∈ out ∧
    startAuthFlow cmdMsg.authURL cmdMsg.stateId <:+: resp.Text

/-- A sample authorization URL builder. -/
def sampleAuthURL (stateId : GoString) : GoString :=
  str "https://accounts.spotify.com/authorize?state=" ++ stateId

/-- A sample command of user `U1`. -/
def sampleCommand : Command := ⟨str "U1", str "https://hooks.example/u1"⟩

/-- A command message for which the store refuses the write. -/
def cmdRefused : CommandMsg :=
  { Command := sampleCommand
    now := 1000
    stateId := str "S1"
    authURL := sampleAuthURL
    putErr := some (.external "write refused")
    currentlyPlaying := fun _ => .ok (some (str "spotify:track:1")) }

/-- A command message for which the store accepts the write. -/
def cmdAccepted : CommandMsg :=
  { Command := sampleCommand
    now := 1000
    stateId := str "S1"
    authURL := sampleAuthURL
    putErr := none
    currentlyPlaying := fun _ => .ok (some (str "spotify:track:1")) }

/-- A sample exchanged token, expiring 1500000000 seconds after the epoch. -/
def sampleToken : OauthToken :=
  { AccessToken := str "BQDaccess"
    TokenType := str "Bearer"
    RefreshToken := str "AQCrefresh"
    Expiry := ⟨1500000000, 0⟩ }

/-- A sample pending state of user `U1`, expiring at nanosecond 2000. -/
def samplePending : AuthState :=
  { Id := str "S3"
    UserId := str "U1"
    ResponseUrl := str "https://hooks.example/u1"
    ExpireTime := 2000 }

/-- A store that holds `samplePending` under `authstate-S3`. -/
def pendingStore : Bucket := ⟨[(authStateKey (str "S3"), samplePending.encode)]⟩

/-- A redirect request with `state=S3`. -/
def sampleRequest : Request := ⟨[(str "code", [str "c0de"]), (str "state", [str "S3"])]⟩

/-- A webhook message that arrives at the expiry of `samplePending`. -/
def whInTime : WebhookMsg :=
  { Request := sampleRequest
    now := 2000
    exchange := fun _ => .ok sampleToken
    putErr := none }

/-- A webhook message that arrives one nanosecond after the expiry of `samplePending`. -/
def whExpired : WebhookMsg :=
  { Request := sampleRequest
    now := 2001
    exchange := fun _ => .ok sampleToken
    putErr := none }

/-- The store `pendingStore` with the Token Record of `sampleToken` written for `U1`. -/
def tokenStore : Bucket :=
  pendingStore.insert (authTokenKey (str "U1")) (tokenRecord sampleToken).encode

/-- A command message issued at the last instant an `int64` of nanoseconds can hold. -/
def cmdLate : CommandMsg :=
  { Command := sampleCommand
    now := 9223372036854775807
    stateId := str "S1"
    authURL := sampleAuthURL
    putErr := none
    currentlyPlaying := fun _ => .ok (some (str "spotify:track:1")) }

/-- A webhook message whose state `S1` was never stored. -/
def whUnknown : WebhookMsg :=
  { Request := ⟨[(str "code", [str "c0de"]), (str "state", [str "S1"])]⟩
    now := 1
    exchange := fun _ => .ok sampleToken
    putErr := none }

/-- A webhook message without a `state` parameter. -/
def whNoState : WebhookMsg :=
  { Request := ⟨[(str "code", [str "c0de"])]⟩
    now := 2000
    exchange := fun _ => .ok sampleToken
    putErr := none }

/-! ## Lemmas on the wire format -/

set_option maxRecDepth 100000

theorem byte_val (n : Nat) : (byte n).val = n % 256 := rfl

theorem decodeVarintAux_encode (fuel : Nat) :
    ∀ (x shift : Nat) (rest : Bytes), 0 < fuel → x < 128 ^ fuel →
      decodeVarintAux fuel shift (encodeVarintAux fuel x ++ rest) = .ok (x * 2 ^ shift, rest) := by
  induction fuel with
  | zero => intro x shift rest h; omega
  | succ k ih =>
    intro x shift rest _ hx
    by_cases hlt : x < 128
    · have hv : (byte x).val = x := by rw [byte_val]; omega
      simp [encodeVarintAux, hlt, decodeVarintAux, hv]
    · have hk : 0 < k := by
        rcases Nat.eq_zero_or_pos k with h0 | h0
        · subst h0; simp at hx; omega
        · exact h0
      have hx2 : x / 128 < 128 ^ k := by
        rw [Nat.div_lt_iff_lt_mul (by norm_num)]
        rw [pow_succ] at hx; exact hx
      have hv : (byte (x % 128 + 128)).val = x % 128 + 128 := by rw [byte_val]; omega
      have hnl : ¬ (x % 128 + 128 < 128) := by omega
      simp only [encodeVarintAux, hlt, if_false, List.cons_append, decodeVarintAux, hv, hnl]
      rw [ih (x / 128) (shift + 7) rest hk hx2]
      simp only [Except.ok.injEq, Prod.mk.injEq, and_true]
      have h1 : (x % 128 + 128) % 128 = x % 128 := by omega
      rw [h1, pow_add]
      have h2 : x = x % 128 + 128 * (x / 128) := (Nat.mod_add_div x 128).symm
      conv_rhs => rw [h2]
      ring

theorem DecodeVarint_encode (x : Nat) (rest : Bytes) :
    DecodeVarint (EncodeVarint x ++ rest) = .ok (x % 2 ^ 64, rest) := by
  have hx : x % 2 ^ 64 < 128 ^ 10 := lt_of_lt_of_le (Nat.mod_lt _ (by norm_num)) (by norm_num)
  unfold DecodeVarint EncodeVarint
  rw [decodeVarintAux_encode 10 (x % 2 ^ 64) 0 rest (by norm_num) hx]
  simp

theorem encodeVarintAux_length (fuel : Nat) : ∀ x : Nat, (encodeVarintAux fuel x).length ≤ fuel := by
  induction fuel with
  | zero => intro x; simp [encodeVarintAux]
  | succ k ih =>
    intro x
    by_cases hlt : x < 128
    · simp [encodeVarintAux, hlt]
    · have := ih (x / 128)
      simp [encodeVarintAux, hlt]; omega

theorem EncodeVarint_length (x : Nat) : (EncodeVarint x).length ≤ 10 :=
  encodeVarintAux_length 10 _

theorem takeBytes_append (s rest : Bytes) : takeBytes s.length (s ++ rest) = .ok (s, rest) := by
  simp [takeBytes]

theorem readField_bytes (num : Nat) (s rest : Bytes) (hnum : 0 < num) (hnum2 : num < 2 ^ 32)
    (hlen : s.length < 2 ^ 64) :
    readField (encodeTag num 2 ++ EncodeVarint s.length ++ s ++ rest)
      = .ok (num, .bytes s, rest) := by
  have hu : (num * 8 + 2) % 2 ^ 64 = num * 8 + 2 := Nat.mod_eq_of_lt (by omega)
  have hd : (num * 8 + 2) / 8 = num := by omega
  have hm : (num * 8 + 2) % 8 = 2 := by omega
  have hl : s.length % 2 ^ 64 = s.length := Nat.mod_eq_of_lt hlen
  unfold readField encodeTag
  simp only [List.append_assoc]
  rw [DecodeVarint_encode, hu]
  simp only [hd, hm]
  rw [if_neg (by omega)]
  rw [DecodeVarint_encode, hl]
  simp only [takeBytes_append]

theorem readField_varint (num n : Nat) (rest : Bytes) (hnum : 0 < num) (hnum2 : num < 2 ^ 32) :
    readField (encodeTag num 0 ++ EncodeVarint n ++ rest)
      = .ok (num, .varint (n % 2 ^ 64), rest) := by
  have hu : (num * 8 + 0) % 2 ^ 64 = num * 8 := Nat.mod_eq_of_lt (by omega)
  have hd : (num * 8) / 8 = num := by omega
  have hm : (num * 8) % 8 = 0 := by omega
  unfold readField encodeTag
  simp only [List.append_assoc]
  rw [DecodeVarint_encode, hu]
  simp only [hd, hm]
  rw [if_neg (by omega)]
  rw [DecodeVarint_encode]

/-! ### 64-bit integers -/

theorem toUint64_lt (x : Int) : toUint64 x < 2 ^ 64 := by
  unfold toUint64
  have h1 : 0 ≤ x % 2 ^ 64 := Int.emod_nonneg _ (by norm_num)
  have h2 : x % 2 ^ 64 < 2 ^ 64 := Int.emod_lt_of_pos _ (by norm_num)
  omega

theorem toInt64_isInt64 (u : Nat) : isInt64 (toInt64 u) := by
  unfold isInt64 toInt64 minInt64 maxInt64
  have h : u % 2 ^ 64 < 2 ^ 64 := Nat.mod_lt _ (by norm_num)
  split <;> constructor <;> omega

theorem toInt64_toUint64 (x : Int) (h : isInt64 x) : toInt64 (toUint64 x) = x := by
  unfold isInt64 minInt64 maxInt64 at h
  unfold toInt64 toUint64
  have h1 : 0 ≤ x % 2 ^ 64 := Int.emod_nonneg _ (by norm_num)
  have h2 : x % 2 ^ 64 < 2 ^ 64 := Int.emod_lt_of_pos _ (by norm_num)
  have h3 : (x % 2 ^ 64).toNat % 2 ^ 64 = (x % 2 ^ 64).toNat := Nat.mod_eq_of_lt (by omega)
  rw [h3]
  have h4 : ((x % 2 ^ 64).toNat : Int) = x % 2 ^ 64 := Int.toNat_of_nonneg h1
  rw [h4]
  by_cases hx : 0 ≤ x
  · have h5 : x % 2 ^ 64 = x := Int.emod_eq_of_lt hx (by omega)
    rw [h5]
    split <;> omega
  · have h5 : x % 2 ^ 64 = x + 2 ^ 64 := by
      have : (x + 2 ^ 64) % 2 ^ 64 = x + 2 ^ 64 := Int.emod_eq_of_lt (by omega) (by omega)
      rw [← this]; simp
    rw [h5]
    split <;> omega

theorem wrapInt64_isInt64 (x : Int) : isInt64 (wrapInt64 x) := toInt64_isInt64 _

theorem wrapInt64_eq (x : Int) (h : isInt64 x) : wrapInt64 x = x := toInt64_toUint64 x h

/-! ### The decoding loop -/

theorem decodeLoop_nil {M : Type} (apply : M → Nat → WireVal → M × Option Err) (fuel : Nat)
    (m : M) : decodeLoop apply fuel [] m = (m, none) := by
  cases fuel <;> simp [decodeLoop]

theorem decodeVarintAux_shorter (fuel : Nat) :
    ∀ (shift : Nat) (buf rest : Bytes) (x : Nat),
      decodeVarintAux fuel shift buf = .ok (x, rest) → rest.length < buf.length := by
  induction fuel with
  | zero => intro shift buf rest x h; simp [decodeVarintAux] at h
  | succ k ih =>
    intro shift buf rest x h
    cases buf with
    | nil => simp [decodeVarintAux] at h
    | cons b tl =>
      simp only [decodeVarintAux] at h
      split at h
      · simp only [Except.ok.injEq, Prod.mk.injEq] at h
        rw [← h.2]; simp
      · cases hrec : decodeVarintAux k (shift + 7) tl with
        | error e => rw [hrec] at h; simp at h
        | ok r =>
          obtain ⟨y, rest1⟩ := r
          rw [hrec] at h
          simp only [Except.ok.injEq, Prod.mk.injEq] at h
          have := ih _ _ _ _ hrec
          rw [← h.2]; simp only [List.length_cons]; omega

theorem DecodeVarint_shorter (buf rest : Bytes) (x : Nat)
    (h : DecodeVarint buf = .ok (x, rest)) : rest.length < buf.length := by
  unfold DecodeVarint at h
  cases hrec : decodeVarintAux 10 0 buf with
  | error e => rw [hrec] at h; simp at h
  | ok r =>
    obtain ⟨y, rest1⟩ := r
    rw [hrec] at h
    simp only [Except.ok.injEq, Prod.mk.injEq] at h
    rw [← h.2]
    exact decodeVarintAux_shorter _ _ _ _ _ hrec

theorem takeBytes_shorter (n : Nat) (buf b rest : Bytes)
    (h : takeBytes n buf = .ok (b, rest)) : rest.length ≤ buf.length := by
  unfold takeBytes at h
  split at h
  · simp only [Except.ok.injEq, Prod.mk.injEq] at h
    rw [← h.2]; simp
  · simp at h

/-- Reading a field consumes at least one byte. -/
theorem readField_shorter (buf rest : Bytes) (num : Nat) (v : WireVal)
    (h : readField buf = .ok (num, v, rest)) : rest.length < buf.length := by
  unfold readField at h
  cases h1 : DecodeVarint buf with
  | error e => rw [h1] at h; simp at h
  | ok r =>
    obtain ⟨u, rest0⟩ := r
    have hlt := DecodeVarint_shorter _ _ _ h1
    rw [h1] at h
    simp only at h
    split at h
    · simp at h
    · split at h
      · cases h2 : DecodeVarint rest0 with
        | error e => rw [h2] at h; simp at h
        | ok r2 =>
          obtain ⟨n, rest1⟩ := r2
          have := DecodeVarint_shorter _ _ _ h2
          rw [h2] at h
          simp only [Except.ok.injEq, Prod.mk.injEq] at h
          rw [← h.2.2]; omega
      · cases h2 : takeBytes 8 rest0 with
        | error e => rw [h2] at h; simp at h
        | ok r2 =>
          obtain ⟨b, rest1⟩ := r2
          have := takeBytes_shorter _ _ _ _ h2
          rw [h2] at h
          simp only [Except.ok.injEq, Prod.mk.injEq] at h
          rw [← h.2.2]; omega
      · cases h2 : DecodeVarint rest0 with
        | error e => rw [h2] at h; simp at h
        | ok r2 =>
          obtain ⟨n, rest1⟩ := r2
          have hlt2 := DecodeVarint_shorter _ _ _ h2
          rw [h2] at h
          simp only at h
          cases h3 : takeBytes n rest1 with
          | error e => rw [h3] at h; simp at h
          | ok r3 =>
            obtain ⟨b, rest2⟩ := r3
            have := takeBytes_shorter _ _ _ _ h3
            rw [h3] at h
            simp only [Except.ok.injEq, Prod.mk.injEq] at h
            rw [← h.2.2]; omega
      · cases h2 : takeBytes 4 rest0 with
        | error e => rw [h2] at h; simp at h
        | ok r2 =>
          obtain ⟨b, rest1⟩ := r2
          have := takeBytes_shorter _ _ _ _ h2
          rw [h2] at h
          simp only [Except.ok.injEq, Prod.mk.injEq] at h
          rw [← h.2.2]; omega
      · simp at h

/-- The fuel of the decoding loop never runs out: any fuel of at least the length of
the buffer gives the same result. -/
theorem decodeLoop_fuel {M : Type} (apply : M → Nat → WireVal → M × Option Err) (fuel1 : Nat) :
    ∀ (fuel2 : Nat) (buf : Bytes) (m : M), buf.length ≤ fuel1 → buf.length ≤ fuel2 →
      decodeLoop apply fuel1 buf m = decodeLoop apply fuel2 buf m := by
  induction fuel1 with
  | zero =>
    intro fuel2 buf m h _
    have h0 : buf = [] := List.length_eq_zero.mp (by omega)
    rw [h0, decodeLoop_nil, decodeLoop_nil]
  | succ k ih =>
    intro fuel2 buf m h h2
    cases buf with
    | nil => rw [decodeLoop_nil, decodeLoop_nil]
    | cons b tl =>
      cases fuel2 with
      | zero => simp at h2
      | succ k2 =>
        simp only [decodeLoop]
        cases hread : readField (b :: tl) with
        | error e => simp
        | ok r =>
          obtain ⟨num, v, rest⟩ := r
          have hlt := readField_shorter _ _ _ _ hread
          simp only [List.length_cons] at hlt h h2
          simp only [reduceCtorEq, if_false]
          cases happ : apply m num v with
          | mk m1 e =>
            cases e with
            | some e => rfl
            | none =>
              simp only []
              exact ih k2 rest m1 (by omega) (by omega)

theorem decodeLoop_step {M : Type} (apply : M → Nat → WireVal → M × Option Err) (fuel : Nat)
    (buf rest : Bytes) (m m1 : M) (num : Nat) (v : WireVal)
    (hbuf : buf ≠ []) (hfuel : buf.length ≤ fuel)
    (hread : readField buf = .ok (num, v, rest)) (happ : apply m num v = (m1, none)) :
    decodeLoop apply fuel buf m = decodeLoop apply (fuel - 1) rest m1 := by
  cases fuel with
  | zero =>
    have : buf.length = 0 := by omega
    exact absurd (List.length_eq_zero.mp this) hbuf
  | succ k => simp [decodeLoop, hbuf, hread, happ]

theorem decodeLoop_string {M : Type} (apply : M → Nat → WireVal → M × Option Err)
    (num : Nat) (s rest : Bytes) (m m1 : M) (fuel : Nat)
    (hnum : 0 < num) (hnum2 : num < 2 ^ 32) (hlen : s.length < 2 ^ 64)
    (hfuel : (encodeString num s ++ rest).length ≤ fuel)
    (happ : s ≠ [] → apply m num (.bytes s) = (m1, none)) (hempty : s = [] → m1 = m) :
    ∃ fuel1, rest.length ≤ fuel1 ∧
      decodeLoop apply fuel (encodeString num s ++ rest) m = decodeLoop apply fuel1 rest m1 := by
  by_cases hs : s = []
  · refine ⟨fuel, ?_, ?_⟩
    · simpa [encodeString, hs] using hfuel
    · simp [encodeString, hs, hempty hs]
  · refine ⟨fuel - 1, ?_, ?_⟩
    · have hpos : 0 < s.length := List.length_pos.mpr hs
      simp [encodeString, hs] at hfuel
      omega
    · have hne : encodeString num s ++ rest ≠ [] := by
        simp [encodeString, hs]
      apply decodeLoop_step apply fuel _ rest m m1 num (.bytes s) hne hfuel _ (happ hs)
      simp only [encodeString, hs, if_false]
      exact readField_bytes num s rest hnum hnum2 hlen

theorem encodeVarintAux_ne_nil (k x : Nat) : encodeVarintAux (k + 1) x ≠ [] := by
  rw [encodeVarintAux]
  split <;> simp

theorem encodeTag_ne_nil (num wire : Nat) : encodeTag num wire ≠ [] :=
  encodeVarintAux_ne_nil 9 _

theorem decodeLoop_int64 {M : Type} (apply : M → Nat → WireVal → M × Option Err)
    (num : Nat) (x : Int) (rest : Bytes) (m m1 : M) (fuel : Nat)
    (hnum : 0 < num) (hnum2 : num < 2 ^ 32)
    (hfuel : (encodeInt64 num x ++ rest).length ≤ fuel)
    (happ : x ≠ 0 → apply m num (.varint (toUint64 x)) = (m1, none)) (hzero : x = 0 → m1 = m) :
    ∃ fuel1, rest.length ≤ fuel1 ∧
      decodeLoop apply fuel (encodeInt64 num x ++ rest) m = decodeLoop apply fuel1 rest m1 := by
  by_cases hx : x = 0
  · refine ⟨fuel, ?_, ?_⟩
    · simpa [encodeInt64, hx] using hfuel
    · simp [encodeInt64, hx, hzero hx]
  · refine ⟨fuel - 1, ?_, ?_⟩
    · have hpos : 0 < (encodeTag num 0).length := List.length_pos.mpr (encodeTag_ne_nil _ _)
      simp [encodeInt64, hx] at hfuel
      omega
    · have hne : encodeInt64 num x ++ rest ≠ [] := by
        simp [encodeInt64, hx, encodeTag_ne_nil]
      apply decodeLoop_step apply fuel _ rest m m1 num (.varint (toUint64 x)) hne hfuel _ (happ hx)
      simp only [encodeInt64, hx, if_false]
      rw [readField_varint num (toUint64 x) rest hnum hnum2, Nat.mod_eq_of_lt (toUint64_lt x)]

/-! ### Round trips of the messages -/

theorem Token_decode_encode (t : Token) (fuel : Nat)
    (hA : t.AccessToken.length < 2 ^ 64) (hT : t.TokenType.length < 2 ^ 64)
    (hR : t.RefreshToken.length < 2 ^ 64) (hE : isInt64 t.ExpiresAt)
    (hfuel : t.encode.length ≤ fuel) :
    decodeLoop Token.apply fuel t.encode Token.zero = (t, none) := by
  obtain ⟨a, b, c, x⟩ := t
  simp only at hA hT hR hE
  have henc : Token.encode ⟨a, b, c, x⟩ =
      encodeString 1 a ++ (encodeString 2 b ++ (encodeString 3 c ++ (encodeInt64 4 x ++ []))) := by
    simp [Token.encode]
  rw [henc] at hfuel ⊢
  obtain ⟨f1, hf1, e1⟩ := decodeLoop_string Token.apply 1 a _ Token.zero ⟨a, [], [], 0⟩ fuel
    (by norm_num) (by norm_num) hA hfuel (fun _ => rfl) (fun h => by rw [h]; rfl)
  obtain ⟨f2, hf2, e2⟩ := decodeLoop_string Token.apply 2 b _ ⟨a, [], [], 0⟩ ⟨a, b, [], 0⟩ f1
    (by norm_num) (by norm_num) hT hf1 (fun _ => rfl) (fun h => by rw [h])
  obtain ⟨f3, hf3, e3⟩ := decodeLoop_string Token.apply 3 c _ ⟨a, b, [], 0⟩ ⟨a, b, c, 0⟩ f2
    (by norm_num) (by norm_num) hR hf2 (fun _ => rfl) (fun h => by rw [h])
  obtain ⟨f4, _, e4⟩ := decodeLoop_int64 Token.apply 4 x [] ⟨a, b, c, 0⟩ ⟨a, b, c, x⟩ f3
    (by norm_num) (by norm_num) hf3
    (fun _ => by simp [Token.apply, toInt64_toUint64 x hE]) (fun h => by rw [h])
  rw [e1, e2, e3, e4, decodeLoop_nil]

theorem AuthState_decode_encode (s : AuthState) (fuel : Nat)
    (hA : s.Id.length < 2 ^ 64) (hT : s.UserId.length < 2 ^ 64)
    (hR : s.ResponseUrl.length < 2 ^ 64) (hE : isInt64 s.ExpireTime)
    (hfuel : s.encode.length ≤ fuel) :
    decodeLoop AuthState.apply fuel s.encode AuthState.zero = (s, none) := by
  obtain ⟨a, b, c, x⟩ := s
  simp only at hA hT hR hE
  have henc : AuthState.encode ⟨a, b, c, x⟩ =
      encodeString 1 a ++ (encodeString 2 b ++ (encodeString 3 c ++ (encodeInt64 4 x ++ []))) := by
    simp [AuthState.encode]
  rw [henc] at hfuel ⊢
  obtain ⟨f1, hf1, e1⟩ := decodeLoop_string AuthState.apply 1 a _ AuthState.zero ⟨a, [], [], 0⟩
    fuel (by norm_num) (by norm_num) hA hfuel (fun _ => rfl) (fun h => by rw [h]; rfl)
  obtain ⟨f2, hf2, e2⟩ := decodeLoop_string AuthState.apply 2 b _ ⟨a, [], [], 0⟩ ⟨a, b, [], 0⟩ f1
    (by norm_num) (by norm_num) hT hf1 (fun _ => rfl) (fun h => by rw [h])
  obtain ⟨f3, hf3, e3⟩ := decodeLoop_string AuthState.apply 3 c _ ⟨a, b, [], 0⟩ ⟨a, b, c, 0⟩ f2
    (by norm_num) (by norm_num) hR hf2 (fun _ => rfl) (fun h => by rw [h])
  obtain ⟨f4, _, e4⟩ := decodeLoop_int64 AuthState.apply 4 x [] ⟨a, b, c, 0⟩ ⟨a, b, c, x⟩ f3
    (by norm_num) (by norm_num) hf3
    (fun _ => by simp [AuthState.apply, toInt64_toUint64 x hE]) (fun h => by rw [h])
  rw [e1, e2, e3, e4, decodeLoop_nil]

theorem unmarshalAuthState_encode (s : AuthState)
    (hA : s.Id.length < 2 ^ 64) (hT : s.UserId.length < 2 ^ 64)
    (hR : s.ResponseUrl.length < 2 ^ 64) (hE : isInt64 s.ExpireTime) :
    unmarshalAuthState s.encode = (s, none) :=
  AuthState_decode_encode s _ hA hT hR hE (le_refl _)

theorem unmarshalAuthToken_encode_some (t : Token)
    (hA : t.AccessToken.length < 2 ^ 64) (hT : t.TokenType.length < 2 ^ 64)
    (hR : t.RefreshToken.length < 2 ^ 64) (hE : isInt64 t.ExpiresAt)
    (hB : t.encode.length < 2 ^ 64) :
    unmarshalAuthToken (AuthToken.encode ⟨some t⟩) = (⟨some t⟩, none) := by
  have hread := readField_bytes 1 t.encode [] (by norm_num) (by norm_num) hB
  have hne : AuthToken.encode ⟨some t⟩ ≠ [] := by
    simp [AuthToken.encode, encodeMessage, encodeTag_ne_nil]
  have henc : AuthToken.encode ⟨some t⟩ =
      encodeTag 1 2 ++ EncodeVarint t.encode.length ++ t.encode ++ [] := by
    simp [AuthToken.encode, encodeMessage]
  have happ : AuthToken.apply AuthToken.zero 1 (.bytes t.encode) = (⟨some t⟩, none) := by
    simp [AuthToken.apply, AuthToken.zero, Token_decode_encode t _ hA hT hR hE (le_refl _)]
  unfold unmarshalAuthToken
  rw [decodeLoop_step AuthToken.apply _ _ [] AuthToken.zero ⟨some t⟩ 1 (.bytes t.encode) hne
    (le_refl _) (by rw [henc]; exact hread) happ, decodeLoop_nil]

theorem unmarshalAuthToken_nil : unmarshalAuthToken [] = (AuthToken.zero, none) := rfl

theorem unmarshalAuthState_nil : unmarshalAuthState [] = (AuthState.zero, none) := rfl

/-! ### The store -/

theorem find_filter_ne (l : List (Bytes × Bytes)) (key key1 : Bytes) (h : key1 ≠ key) :
    (l.filter (fun kv => kv.1 ≠ key)).find? (fun kv => kv.1 = key1)
      = l.find? (fun kv => kv.1 = key1) := by
  induction l with
  | nil => rfl
  | cons kv l ih =>
    by_cases h1 : kv.1 = key
    · have h2 : ¬ kv.1 = key1 := fun h3 => h (h3.symm.trans h1)
      have d1 : decide (kv.1 ≠ key) = false := by simp [h1]
      have d2 : decide (kv.1 = key1) = false := by simp [h2]
      rw [List.filter_cons, List.find?_cons]
      simp only [d1, d2, Bool.false_eq_true, if_false]
      exact ih
    · have d1 : decide (kv.1 ≠ key) = true := by simp [h1]
      rw [List.filter_cons]
      simp only [d1, if_true]
      rw [List.find?_cons, List.find?_cons, ih]

theorem find_filter_same (l : List (Bytes × Bytes)) (key : Bytes) :
    (l.filter (fun kv => kv.1 ≠ key)).find? (fun kv => kv.1 = key) = none := by
  induction l with
  | nil => rfl
  | cons kv l ih =>
    by_cases h1 : kv.1 = key
    · have d1 : decide (kv.1 ≠ key) = false := by simp [h1]
      rw [List.filter_cons]
      simp only [d1, Bool.false_eq_true, if_false]
      exact ih
    · have d1 : decide (kv.1 ≠ key) = true := by simp [h1]
      have d2 : decide (kv.1 = key) = false := by simp [h1]
      rw [List.filter_cons]
      simp only [d1, if_true]
      rw [List.find?_cons]
      simp only [d2]
      exact ih

theorem lookup_insert_same (b : Bucket) (key value : Bytes) :
    (b.insert key value).lookup key = some value := by
  simp [Bucket.insert, Bucket.lookup]

theorem lookup_insert_other (b : Bucket) (key key1 value : Bytes) (h : key1 ≠ key) :
    (b.insert key value).lookup key1 = b.lookup key1 := by
  have d2 : decide (key = key1) = false := by
    simp only [decide_eq_false_iff_not]; exact fun h3 => h h3.symm
  unfold Bucket.insert Bucket.lookup
  rw [List.find?_cons]
  simp only [d2]
  rw [find_filter_ne _ key key1 h]

theorem lookup_Delete_same (b : Bucket) (key : Bytes) : (b.Delete key).lookup key = none := by
  unfold Bucket.Delete Bucket.lookup
  rw [find_filter_same]; rfl

theorem lookup_Delete_other (b : Bucket) (key key1 : Bytes) (h : key1 ≠ key) :
    (b.Delete key).lookup key1 = b.lookup key1 := by
  unfold Bucket.Delete Bucket.lookup
  rw [find_filter_ne _ key key1 h]

theorem str_authtoken : str "authtoken-" = [97, 117, 116, 104, 116, 111, 107, 101, 110, 45] := by
  decide

theorem str_authstate : str "authstate-" = [97, 117, 116, 104, 115, 116, 97, 116, 101, 45] := by
  decide

theorem authStateKey_ne_authTokenKey (stateId userId : GoString) :
    authStateKey stateId ≠ authTokenKey userId := by
  simp [authStateKey, authTokenKey, str_authtoken, str_authstate]

theorem authTokenKey_injective (u v : GoString) (h : authTokenKey u = authTokenKey v) : u = v := by
  simpa [authTokenKey] using h

/-! ## The claims -/

/-- A user without a stored token decodes to a record with an unset `Token`. -/
theorem noStoredToken_decode (bkt : Bucket) (userId : GoString) (h : noStoredToken bkt userId) :
    ∃ a, unmarshalAuthToken (bkt.Get (authTokenKey userId)) = (a, none) ∧ a.Token = none := by
  rcases h with h | ⟨bytes, a, h1, h2, h3⟩
  · exact ⟨AuthToken.zero, by simp [Bucket.Get, h, unmarshalAuthToken_nil], rfl⟩
  · exact ⟨a, by simp [Bucket.Get, h1, h2], h3⟩

/-- C1 (amended): for every nowplaying command whose user has no stored token (the
key is absent, or its value decodes to a record whose Token is unset), the
handler never calls the external currently-playing endpoint; and whenever the
store accepts the write of the pending state, it sends a reply whose text
contains the authorization URL. -/
theorem nowPlaying_no_token (cmdMsg : CommandMsg) (store : Bucket)
    (h : noStoredToken store cmdMsg.Command.UserId) :
    (∀ token, Event.currentlyPlaying token ∉ (nowPlayingMsg cmdMsg store).out) ∧
    (∀ bkt1, store.Put cmdMsg.putErr (authStateKey cmdMsg.stateId)
        (pendingAuthState cmdMsg).encode = .ok bkt1 →
      repliesWithAuthURL cmdMsg (nowPlayingMsg cmdMsg store).out) := by
  obtain ⟨a, hdec, hnone⟩ := noStoredToken_decode store _ h
  obtain ⟨tok⟩ := a
  simp only at hnone
  subst hnone
  constructor
  · intro token
    cases hput : store.Put cmdMsg.putErr (authStateKey cmdMsg.stateId)
        (pendingAuthState cmdMsg).encode with
    | error e =>
      simp [nowPlayingMsg, UpdateRaw, nowPlayingTx, hdec, marshalAuthState, hput]
    | ok b =>
      simp [nowPlayingMsg, UpdateRaw, nowPlayingTx, hdec, marshalAuthState, hput]
  · intro bkt1 hput
    refine ⟨⟨str "You need to be authenticate to Spotify to continue. Please visit " ++
      startAuthFlow cmdMsg.authURL cmdMsg.stateId ++ str " to do this.", false⟩, ?_, ?_⟩
    · simp [nowPlayingMsg, UpdateRaw, nowPlayingTx, hdec, marshalAuthState, hput]
    · exact ⟨_, _, rfl⟩

/-- Witness of C1 (amended): a user without a token on an empty store that accepts
the write. -/
theorem nowPlaying_no_token_witness :
    noStoredToken ⟨[]⟩ cmdAccepted.Command.UserId ∧
    (∀ token, Event.currentlyPlaying token ∉ (nowPlayingMsg cmdAccepted ⟨[]⟩).out) ∧
    repliesWithAuthURL cmdAccepted (nowPlayingMsg cmdAccepted ⟨[]⟩).out :=
  ⟨Or.inl rfl, (nowPlaying_no_token cmdAccepted ⟨[]⟩ (Or.inl rfl)).1,
    (nowPlaying_no_token cmdAccepted ⟨[]⟩ (Or.inl rfl)).2 _ rfl⟩

/-- The events of the sample command whose write the store refuses. -/
theorem nowPlaying_refused_out :
    (nowPlayingMsg cmdRefused ⟨[]⟩).out =
      [.reply sampleCommand ⟨str "There was an error authenticating to Spotify.", false⟩,
       .respond sampleCommand.ResponseUrl ⟨str "Unable to run now playing.", false⟩] := by
  rfl

/-- C1 as stated fails: the user has no stored token, the store refuses the write of
the pending state, and no reply contains the authorization URL (the replies are
the two error texts). -/
theorem nowPlaying_no_token_refused :
    noStoredToken ⟨[]⟩ cmdRefused.Command.UserId ∧
      ¬ repliesWithAuthURL cmdRefused (nowPlayingMsg cmdRefused ⟨[]⟩).out := by
  refine ⟨Or.inl rfl, ?_⟩
  rintro ⟨resp, hmem, hinf⟩
  rw [nowPlaying_refused_out] at hmem
  simp only [List.mem_cons, Event.reply.injEq, List.mem_singleton, reduceCtorEq, or_false,
    List.not_mem_nil] at hmem
  obtain ⟨_, rfl⟩ := hmem
  revert hinf
  decide

/-- C2: for a webhook whose state has a pending record that decodes, the transaction
function ends with the expired error without a token exchange exactly when
`ExpireTime < now`; in that case no Token Record is written under any key; and
when `now ≤ ExpireTime`, equality included, the token exchange is attempted. -/
theorem webhook_expiry (whMsg : WebhookMsg) (stateId0 : GoString) (store : Bucket)
    (bytes : Bytes) (authState : AuthState)
    (hrec : store.lookup (authStateKey stateId0) = some bytes)
    (hdec : unmarshalAuthState bytes = (authState, none)) :
    (authState.ExpireTime < whMsg.now ↔
      ((spotifyAuthorizeWebhookTx whMsg stateId0 store).ret = .error .expired ∧
        ∀ state, Event.tokenExchange state ∉ (spotifyAuthorizeWebhookTx whMsg stateId0 store).out)) ∧
    (authState.ExpireTime < whMsg.now →
      ∀ userId, (spotifyAuthorizeWebhookTx whMsg stateId0 store).bkt.lookup (authTokenKey userId)
        = store.lookup (authTokenKey userId)) ∧
    (whMsg.now ≤ authState.ExpireTime →
      Event.tokenExchange stateId0 ∈ (spotifyAuthorizeWebhookTx whMsg stateId0 store).out) := by
  have hget : unmarshalAuthState (store.Get (authStateKey stateId0)) = (authState, none) := by
    simp [Bucket.Get, hrec, hdec]
  have hin : whMsg.now ≤ authState.ExpireTime →
      Event.tokenExchange stateId0 ∈ (spotifyAuthorizeWebhookTx whMsg stateId0 store).out := by
    intro hle
    have hnlt : ¬ authState.ExpireTime < whMsg.now := not_lt.mpr hle
    simp only [spotifyAuthorizeWebhookTx, hget, hnlt, if_false]
    cases whMsg.exchange stateId0 with
    | error e => simp
    | ok token =>
      simp only []
      cases Bucket.Put whMsg.putErr store (authTokenKey authState.UserId)
        (match marshalAuthToken (tokenRecord token) with
          | .ok b => b
          | .error _ => []) with
      | error e => simp
      | ok b => simp
  refine ⟨⟨?_, ?_⟩, ?_, hin⟩
  · intro hlt
    simp [spotifyAuthorizeWebhookTx, hget, hlt]
  · rintro ⟨_, hno⟩
    by_contra hnlt
    exact hno stateId0 (hin (not_lt.mp hnlt))
  · intro hlt userId
    simp only [spotifyAuthorizeWebhookTx, hget, hlt, if_true]
    exact lookup_Delete_other store _ _ (authStateKey_ne_authTokenKey _ _).symm

/-- Witness of C2: the sample pending state, one nanosecond after its expiry. -/
theorem webhook_expiry_witness :
    (samplePending.ExpireTime < whExpired.now ↔
      ((spotifyAuthorizeWebhookTx whExpired (str "S3") pendingStore).ret = .error .expired ∧
        ∀ state, Event.tokenExchange state ∉
          (spotifyAuthorizeWebhookTx whExpired (str "S3") pendingStore).out)) ∧
    (samplePending.ExpireTime < whExpired.now →
      ∀ userId, (spotifyAuthorizeWebhookTx whExpired (str "S3") pendingStore).bkt.lookup
          (authTokenKey userId) = pendingStore.lookup (authTokenKey userId)) ∧
    (whExpired.now ≤ samplePending.ExpireTime →
      Event.tokenExchange (str "S3") ∈
        (spotifyAuthorizeWebhookTx whExpired (str "S3") pendingStore).out) :=
  webhook_expiry whExpired (str "S3") pendingStore samplePending.encode samplePending
    (by decide) (by decide)

/-- C3, the code at a failing input: the pending state of `S3` expired one nanosecond
ago. The transaction function deletes the record and the reply is the generic
login-failure message, but the function returns the expired error, the
transaction is rolled back, and the record is still in the store after the
message has been handled. -/
theorem expired_state_not_deleted :
    samplePending.ExpireTime < whExpired.now ∧
    pendingStore.lookup (authStateKey (str "S3")) = some samplePending.encode ∧
    unmarshalAuthState samplePending.encode = (samplePending, none) ∧
    (spotifyAuthorizeWebhookTx whExpired (str "S3") pendingStore).bkt.lookup
      (authStateKey (str "S3")) = none ∧
    (spotifyAuthorizeWebhookMsg whExpired pendingStore).ret = .error .expired ∧
    (spotifyAuthorizeWebhookMsg whExpired pendingStore).out =
      [.respond samplePending.ResponseUrl
        ⟨str "Sorry! There was an error logging you into Spotify.", false⟩] ∧
    (spotifyAuthorizeWebhookMsg whExpired pendingStore).bkt.lookup (authStateKey (str "S3"))
      = some samplePending.encode := by
  decide

/-- A transaction whose function returns an error leaves the store as it was. -/
theorem UpdateRaw_error (store : Bucket) (updateFunc : Bucket → Outcome) (e : Err)
    (h : (updateFunc store).ret = .error e) : (UpdateRaw store updateFunc).bkt = store := by
  simp [UpdateRaw, h]

/-- C4: in either loop, when the transaction function of a message returns an error,
the store after the handling of the message is the store before it. -/
theorem failed_transaction_keeps_store (store : Bucket) :
    (∀ (cmdMsg : CommandMsg) (e : Err), (nowPlayingTx cmdMsg store).ret = .error e →
      (nowPlayingMsg cmdMsg store).bkt = store) ∧
    (∀ (whMsg : WebhookMsg) (stateId0 : GoString) (more : List GoString) (e : Err),
      whMsg.Request.Query (str "state") = some (stateId0 :: more) →
      (spotifyAuthorizeWebhookTx whMsg stateId0 store).ret = .error e →
      (spotifyAuthorizeWebhookMsg whMsg store).bkt = store) := by
  constructor
  · intro cmdMsg e h
    have h1 := UpdateRaw_error store (nowPlayingTx cmdMsg) e h
    simp only [nowPlayingMsg]
    split <;> simpa using h1
  · intro whMsg stateId0 more e hq h
    simp only [spotifyAuthorizeWebhookMsg, hq]
    exact UpdateRaw_error store _ e h

/-- Witness of C4: a command whose write the store refuses, and an expired webhook
whose transaction function had deleted a record before it returned the error. -/
theorem failed_transaction_keeps_store_witness :
    (nowPlayingTx cmdRefused ⟨[]⟩).ret = .error (.external "write refused") ∧
    (nowPlayingMsg cmdRefused ⟨[]⟩).bkt = ⟨[]⟩ ∧
    whExpired.Request.Query (str "state") = some [str "S3"] ∧
    (spotifyAuthorizeWebhookTx whExpired (str "S3") pendingStore).ret = .error .expired ∧
    (spotifyAuthorizeWebhookTx whExpired (str "S3") pendingStore).bkt ≠ pendingStore ∧
    (spotifyAuthorizeWebhookMsg whExpired pendingStore).bkt = pendingStore :=
  ⟨by decide, (failed_transaction_keeps_store ⟨[]⟩).1 cmdRefused (.external "write refused") (by decide), by decide,
    by decide, by decide,
    (failed_transaction_keeps_store pendingStore).2 whExpired (str "S3") [] .expired (by decide)
      (by decide)⟩

/-! ### Sizes of the wire forms -/

theorem encodeString_length (num : Nat) (s : GoString) : s.length ≤ (encodeString num s).length := by
  unfold encodeString
  split
  · simp [*]
  · simp only [List.length_append]; omega

theorem Token_encode_length (t : Token) :
    t.AccessToken.length ≤ t.encode.length ∧ t.TokenType.length ≤ t.encode.length ∧
      t.RefreshToken.length ≤ t.encode.length := by
  have h1 := encodeString_length 1 t.AccessToken
  have h2 := encodeString_length 2 t.TokenType
  have h3 := encodeString_length 3 t.RefreshToken
  simp only [Token.encode, List.length_append]
  omega

theorem AuthState_encode_length (s : AuthState) :
    s.Id.length ≤ s.encode.length ∧ s.UserId.length ≤ s.encode.length ∧
      s.ResponseUrl.length ≤ s.encode.length := by
  have h1 := encodeString_length 1 s.Id
  have h2 := encodeString_length 2 s.UserId
  have h3 := encodeString_length 3 s.ResponseUrl
  simp only [AuthState.encode, List.length_append]
  omega

theorem encodeMessage_length (num : Nat) (body : Bytes) :
    body.length ≤ (encodeMessage num body).length := by
  simp only [encodeMessage, List.length_append]; omega

/-- An accepted write binds the key and has a value of at most `MaxValueSize` bytes. -/
theorem Put_ok (fault : Option Err) (b b1 : Bucket) (key value : Bytes)
    (h : b.Put fault key value = .ok b1) :
    b1 = b.insert key value ∧ value.length ≤ MaxValueSize := by
  unfold Bucket.Put at h
  cases fault with
  | some e => simp at h
  | none =>
    simp only at h
    split at h
    · simp at h
    · split at h
      · simp at h
      · split at h
        · simp at h
        · simp only [Except.ok.injEq] at h
          exact ⟨h.symm, by omega⟩

theorem UnixNano_isInt64 (t : Time) : isInt64 t.UnixNano := wrapInt64_isInt64 _

/-- A Token Record that fits in a stored value decodes to itself. -/
theorem unmarshal_tokenRecord (token : OauthToken)
    (hsize : (tokenRecord token).encode.length ≤ MaxValueSize) :
    unmarshalAuthToken (tokenRecord token).encode = (tokenRecord token, none) := by
  have hbody : (Token.encode ⟨token.AccessToken, token.TokenType, token.RefreshToken,
      token.Expiry.UnixNano⟩).length ≤ MaxValueSize :=
    le_trans (encodeMessage_length 1 _) hsize
  have hM : MaxValueSize < 2 ^ 64 := by unfold MaxValueSize; norm_num
  obtain ⟨h1, h2, h3⟩ := Token_encode_length ⟨token.AccessToken, token.TokenType,
    token.RefreshToken, token.Expiry.UnixNano⟩
  simp only at h1 h2 h3
  exact unmarshalAuthToken_encode_some _ (by simp only; omega) (by simp only; omega)
    (by simp only; omega) (UnixNano_isInt64 _) (by omega)

/-- The outcome of the callback handler on its success path. -/
theorem webhook_success (whMsg : WebhookMsg) (stateId0 : GoString) (more : List GoString)
    (store bkt1 : Bucket) (bytes : Bytes) (authState : AuthState) (token : OauthToken)
    (hq : whMsg.Request.Query (str "state") = some (stateId0 :: more))
    (hrec : store.lookup (authStateKey stateId0) = some bytes)
    (hdec : unmarshalAuthState bytes = (authState, none))
    (hexp : whMsg.now ≤ authState.ExpireTime)
    (hex : whMsg.exchange stateId0 = .ok token)
    (hput : store.Put whMsg.putErr (authTokenKey authState.UserId) (tokenRecord token).encode
      = .ok bkt1) :
    spotifyAuthorizeWebhookMsg whMsg store =
      ⟨bkt1, [.tokenExchange stateId0, .respond authState.ResponseUrl
        ⟨str "Successfully logged into Spotify. Try your command again please.", false⟩],
        .nil⟩ := by
  have hget : unmarshalAuthState (store.Get (authStateKey stateId0)) = (authState, none) := by
    simp [Bucket.Get, hrec, hdec]
  have hnlt : ¬ authState.ExpireTime < whMsg.now := not_lt.mpr hexp
  simp [spotifyAuthorizeWebhookMsg, hq, UpdateRaw, spotifyAuthorizeWebhookTx, hget, hnlt, hex,
    marshalAuthToken, hput]

/-- C5: after the callback handler has written the Token Record for a pending state
of user U, a nowplaying command of the same user on that store finds the
serialised record under the key it reads, deserialises it to the record that
was serialised, field for field, and queries the currently-playing endpoint
with the OAuth token of that record. -/
theorem token_record_round_trip (whMsg : WebhookMsg) (stateId0 : GoString)
    (more : List GoString) (store bkt1 : Bucket) (bytes : Bytes) (authState : AuthState)
    (token : OauthToken) (cmdMsg : CommandMsg)
    (hq : whMsg.Request.Query (str "state") = some (stateId0 :: more))
    (hrec : store.lookup (authStateKey stateId0) = some bytes)
    (hdec : unmarshalAuthState bytes = (authState, none))
    (hexp : whMsg.now ≤ authState.ExpireTime)
    (hex : whMsg.exchange stateId0 = .ok token)
    (hput : store.Put whMsg.putErr (authTokenKey authState.UserId) (tokenRecord token).encode
      = .ok bkt1)
    (huser : cmdMsg.Command.UserId = authState.UserId) :
    (spotifyAuthorizeWebhookMsg whMsg store).bkt.lookup (authTokenKey cmdMsg.Command.UserId)
      = some (tokenRecord token).encode ∧
    unmarshalAuthToken
        ((spotifyAuthorizeWebhookMsg whMsg store).bkt.Get (authTokenKey cmdMsg.Command.UserId))
      = (tokenRecord token, none) ∧
    ∃ tok, (tokenRecord token).GetOauthToken = some tok ∧
      Event.currentlyPlaying tok ∈
        (nowPlayingMsg cmdMsg (spotifyAuthorizeWebhookMsg whMsg store).bkt).out := by
  rw [webhook_success whMsg stateId0 more store bkt1 bytes authState token hq hrec hdec hexp hex
    hput]
  obtain ⟨hb, hsize⟩ := Put_ok _ _ _ _ _ hput
  have hlook : bkt1.lookup (authTokenKey cmdMsg.Command.UserId)
      = some (tokenRecord token).encode := by
    rw [huser, hb, lookup_insert_same]
  have hget : unmarshalAuthToken (bkt1.Get (authTokenKey cmdMsg.Command.UserId))
      = (tokenRecord token, none) := by
    simp only [Bucket.Get, hlook, Option.getD_some]
    exact unmarshal_tokenRecord token hsize
  refine ⟨hlook, hget, ⟨token.AccessToken, token.TokenType, token.RefreshToken,
    Time.Unix token.Expiry.UnixNano 0⟩, rfl, ?_⟩
  simp only [nowPlayingMsg, UpdateRaw, nowPlayingTx, hget]
  simp only [tokenRecord, AuthToken.GetOauthToken]
  cases cmdMsg.currentlyPlaying _ with
  | error e => simp
  | ok item =>
    cases item with
    | none => simp
    | some uri => simp

/-- C7: for a webhook with a pending unexpired state whose token exchange and store
write succeed, the handler returns nil; every key other than `authtoken-<U>`, U
the `UserId` of the pending state, holds what it held before; `authtoken-<U>`
holds the serialised Token Record built from the exchanged token; the pending
record under `authstate-<S>` is still there unchanged; and the events are the
exchange and the success reply to the `ResponseUrl` of the pending state. -/
theorem webhook_success_frame (whMsg : WebhookMsg) (stateId0 : GoString) (more : List GoString)
    (store bkt1 : Bucket) (bytes : Bytes) (authState : AuthState) (token : OauthToken)
    (hq : whMsg.Request.Query (str "state") = some (stateId0 :: more))
    (hrec : store.lookup (authStateKey stateId0) = some bytes)
    (hdec : unmarshalAuthState bytes = (authState, none))
    (hexp : whMsg.now ≤ authState.ExpireTime)
    (hex : whMsg.exchange stateId0 = .ok token)
    (hput : store.Put whMsg.putErr (authTokenKey authState.UserId) (tokenRecord token).encode
      = .ok bkt1) :
    (spotifyAuthorizeWebhookMsg whMsg store).ret = .nil ∧
    (∀ key, key ≠ authTokenKey authState.UserId →
      (spotifyAuthorizeWebhookMsg whMsg store).bkt.lookup key = store.lookup key) ∧
    (spotifyAuthorizeWebhookMsg whMsg store).bkt.lookup (authTokenKey authState.UserId)
      = some (AuthToken.encode ⟨some ⟨token.AccessToken, token.TokenType, token.RefreshToken,
          token.Expiry.UnixNano⟩⟩) ∧
    (spotifyAuthorizeWebhookMsg whMsg store).bkt.lookup (authStateKey stateId0) = some bytes ∧
    (spotifyAuthorizeWebhookMsg whMsg store).out =
      [.tokenExchange stateId0, .respond authState.ResponseUrl
        ⟨str "Successfully logged into Spotify. Try your command again please.", false⟩] := by
  rw [webhook_success whMsg stateId0 more store bkt1 bytes authState token hq hrec hdec hexp hex
    hput]
  obtain ⟨hb, _⟩ := Put_ok _ _ _ _ _ hput
  subst hb
  refine ⟨rfl, ?_, ?_, ?_, rfl⟩
  · intro key hkey
    exact lookup_insert_other store _ key _ hkey
  · exact lookup_insert_same store _ _
  · simp only []
    rw [lookup_insert_other store _ _ _ (authStateKey_ne_authTokenKey _ _), hrec]

/-- Witness of C5: the sample webhook in time, followed by a command of user `U1`. -/
theorem token_record_round_trip_witness :
    (spotifyAuthorizeWebhookMsg whInTime pendingStore).bkt.lookup
        (authTokenKey cmdAccepted.Command.UserId) = some (tokenRecord sampleToken).encode ∧
    unmarshalAuthToken ((spotifyAuthorizeWebhookMsg whInTime pendingStore).bkt.Get
        (authTokenKey cmdAccepted.Command.UserId)) = (tokenRecord sampleToken, none) ∧
    ∃ tok, (tokenRecord sampleToken).GetOauthToken = some tok ∧
      Event.currentlyPlaying tok ∈
        (nowPlayingMsg cmdAccepted (spotifyAuthorizeWebhookMsg whInTime pendingStore).bkt).out :=
  token_record_round_trip whInTime (str "S3") [] pendingStore tokenStore samplePending.encode
    samplePending sampleToken cmdAccepted (by decide) (by decide) (by decide) (by decide) rfl rfl
    (by decide)

/-- Witness of C7: the sample webhook at the very expiry of the sample pending state. -/
theorem webhook_success_frame_witness :
    (spotifyAuthorizeWebhookMsg whInTime pendingStore).ret = .nil ∧
    (∀ key, key ≠ authTokenKey samplePending.UserId →
      (spotifyAuthorizeWebhookMsg whInTime pendingStore).bkt.lookup key
        = pendingStore.lookup key) ∧
    (spotifyAuthorizeWebhookMsg whInTime pendingStore).bkt.lookup
        (authTokenKey samplePending.UserId)
      = some (AuthToken.encode ⟨some ⟨sampleToken.AccessToken, sampleToken.TokenType,
          sampleToken.RefreshToken, sampleToken.Expiry.UnixNano⟩⟩) ∧
    (spotifyAuthorizeWebhookMsg whInTime pendingStore).bkt.lookup (authStateKey (str "S3"))
      = some samplePending.encode ∧
    (spotifyAuthorizeWebhookMsg whInTime pendingStore).out =
      [.tokenExchange (str "S3"), .respond samplePending.ResponseUrl
        ⟨str "Successfully logged into Spotify. Try your command again please.", false⟩] :=
  webhook_success_frame whInTime (str "S3") [] pendingStore tokenStore samplePending.encode
    samplePending sampleToken (by decide) (by decide) (by decide) (by decide) rfl rfl

/-- C6 (amended): for a nowplaying command of a user without a stored token, issued
at an `int64` time `now` with `now + 900000000000` not above the largest `int64`,
on a store that accepts the write: the store holds under `authstate-<stateId>`
the serialised pending state with the fresh state identifier, the user, the
reply destination of the command and `ExpireTime = now + 900000000000`, it
decodes to that state, and the only reply is the login text around the
authorization URL of that state identifier. -/
theorem pending_state_persisted (cmdMsg : CommandMsg) (store bkt1 : Bucket)
    (hno : noStoredToken store cmdMsg.Command.UserId)
    (hnow : isInt64 cmdMsg.now) (hlate : cmdMsg.now + 900000000000 ≤ maxInt64)
    (hput : store.Put cmdMsg.putErr (authStateKey cmdMsg.stateId)
      (pendingAuthState cmdMsg).encode = .ok bkt1) :
    (nowPlayingMsg cmdMsg store).ret = .nil ∧
    (nowPlayingMsg cmdMsg store).bkt.lookup (authStateKey cmdMsg.stateId)
      = some (AuthState.encode ⟨cmdMsg.stateId, cmdMsg.Command.UserId,
          cmdMsg.Command.ResponseUrl, cmdMsg.now + 900000000000⟩) ∧
    unmarshalAuthState ((nowPlayingMsg cmdMsg store).bkt.Get (authStateKey cmdMsg.stateId))
      = (⟨cmdMsg.stateId, cmdMsg.Command.UserId, cmdMsg.Command.ResponseUrl,
          cmdMsg.now + 900000000000⟩, none) ∧
    (nowPlayingMsg cmdMsg store).out =
      [.reply cmdMsg.Command
        ⟨str "You need to be authenticate to Spotify to continue. Please visit " ++
          startAuthFlow cmdMsg.authURL cmdMsg.stateId ++ str " to do this.", false⟩] := by
  obtain ⟨a, hdec, hnone⟩ := noStoredToken_decode store _ hno
  obtain ⟨tok⟩ := a
  simp only at hnone
  subst hnone
  have hexp : wrapInt64 (cmdMsg.now + fifteenMinutes) = cmdMsg.now + 900000000000 := by
    have h15 : fifteenMinutes = 900000000000 := by unfold fifteenMinutes; norm_num
    rw [h15]
    apply wrapInt64_eq
    unfold isInt64 at hnow ⊢
    unfold minInt64 at hnow ⊢
    constructor <;> omega
  have hst : pendingAuthState cmdMsg = ⟨cmdMsg.stateId, cmdMsg.Command.UserId,
      cmdMsg.Command.ResponseUrl, cmdMsg.now + 900000000000⟩ := by
    simp only [pendingAuthState, hexp]
  have hmsg : nowPlayingMsg cmdMsg store = ⟨bkt1, [.reply cmdMsg.Command
        ⟨str "You need to be authenticate to Spotify to continue. Please visit " ++
          startAuthFlow cmdMsg.authURL cmdMsg.stateId ++ str " to do this.", false⟩], .nil⟩ := by
    simp [nowPlayingMsg, UpdateRaw, nowPlayingTx, hdec, marshalAuthState, hput]
  obtain ⟨hb, hsize⟩ := Put_ok _ _ _ _ _ hput
  rw [hmsg]
  have hlook : bkt1.lookup (authStateKey cmdMsg.stateId)
      = some (pendingAuthState cmdMsg).encode := by
    rw [hb, lookup_insert_same]
  refine ⟨rfl, ?_, ?_, rfl⟩
  · simp only []
    rw [hlook, hst]
  · simp only [Bucket.Get, hlook, Option.getD_some]
    rw [← hst]
    have hM : MaxValueSize < 2 ^ 64 := by unfold MaxValueSize; norm_num
    obtain ⟨h1, h2, h3⟩ := AuthState_encode_length (pendingAuthState cmdMsg)
    exact unmarshalAuthState_encode _ (by omega) (by omega) (by omega)
      (by rw [hst]; unfold isInt64 minInt64 at *; constructor <;> simp only <;> omega)

/-- Witness of C6 (amended): the sample command at nanosecond 1000 on an empty store. -/
theorem pending_state_persisted_witness :
    (nowPlayingMsg cmdAccepted ⟨[]⟩).ret = .nil ∧
    (nowPlayingMsg cmdAccepted ⟨[]⟩).bkt.lookup (authStateKey (str "S1"))
      = some (AuthState.encode ⟨str "S1", str "U1", str "https://hooks.example/u1",
          900000001000⟩) ∧
    unmarshalAuthState ((nowPlayingMsg cmdAccepted ⟨[]⟩).bkt.Get (authStateKey (str "S1")))
      = (⟨str "S1", str "U1", str "https://hooks.example/u1", 900000001000⟩, none) ∧
    (nowPlayingMsg cmdAccepted ⟨[]⟩).out =
      [.reply sampleCommand
        ⟨str "You need to be authenticate to Spotify to continue. Please visit " ++
          str "https://accounts.spotify.com/authorize?state=S1" ++ str " to do this.", false⟩] :=
  pending_state_persisted cmdAccepted ⟨[]⟩
    (Bucket.insert ⟨[]⟩ (authStateKey (str "S1")) (pendingAuthState cmdAccepted).encode)
    (Or.inl rfl) (by decide) (by decide) rfl

/-- C6 as stated fails: at `now = 9223372036854775807` the `int64` sum wraps and the
persisted `ExpireTime` is `-9223371136854775809`, not `now + 900000000000`. -/
theorem pending_state_expiry_wraps :
    noStoredToken ⟨[]⟩ cmdLate.Command.UserId ∧
    Bucket.Put cmdLate.putErr ⟨[]⟩ (authStateKey cmdLate.stateId) (pendingAuthState cmdLate).encode
      = .ok (Bucket.insert ⟨[]⟩ (authStateKey cmdLate.stateId) (pendingAuthState cmdLate).encode) ∧
    unmarshalAuthState ((nowPlayingMsg cmdLate ⟨[]⟩).bkt.Get (authStateKey cmdLate.stateId))
      = (⟨str "S1", str "U1", str "https://hooks.example/u1", -9223371136854775809⟩, none) ∧
    (-9223371136854775809 : Int) ≠ cmdLate.now + 900000000000 :=
  ⟨Or.inl rfl, rfl, by decide, by decide⟩

/-- C8: for a webhook whose state has no record in the store, handled at a time
after the Unix epoch, the handler ends with an error, attempts no token
exchange, writes no Token Record under any key, and its only event is the
generic login-failure reply to the empty reply destination. -/
theorem unknown_state_rejected (whMsg : WebhookMsg) (stateId0 : GoString)
    (more : List GoString) (store : Bucket)
    (hq : whMsg.Request.Query (str "state") = some (stateId0 :: more))
    (habs : store.lookup (authStateKey stateId0) = none)
    (hnow : 0 < whMsg.now) :
    (spotifyAuthorizeWebhookMsg whMsg store).ret = .error .expired ∧
    (∀ state, Event.tokenExchange state ∉ (spotifyAuthorizeWebhookMsg whMsg store).out) ∧
    (∀ userId, (spotifyAuthorizeWebhookMsg whMsg store).bkt.lookup (authTokenKey userId)
      = store.lookup (authTokenKey userId)) ∧
    (spotifyAuthorizeWebhookMsg whMsg store).out =
      [.respond [] ⟨str "Sorry! There was an error logging you into Spotify.", false⟩] := by
  have hget : unmarshalAuthState (store.Get (authStateKey stateId0)) = (AuthState.zero, none) := by
    simp [Bucket.Get, habs, unmarshalAuthState_nil]
  have hmsg : spotifyAuthorizeWebhookMsg whMsg store = ⟨store,
      [.respond [] ⟨str "Sorry! There was an error logging you into Spotify.", false⟩],
      .error .expired⟩ := by
    simp [spotifyAuthorizeWebhookMsg, hq, UpdateRaw, spotifyAuthorizeWebhookTx, hget, hnow,
      AuthState.zero]
  rw [hmsg]
  refine ⟨rfl, ?_, fun _ => rfl, rfl⟩
  intro state
  simp

/-- Witness of C8: state `S1` against a store that only holds `S3`. -/
theorem unknown_state_rejected_witness :
    whUnknown.Request.Query (str "state") = some [str "S1"] ∧
    pendingStore.lookup (authStateKey (str "S1")) = none ∧
    (spotifyAuthorizeWebhookMsg whUnknown pendingStore).ret = .error .expired ∧
    (∀ state, Event.tokenExchange state ∉ (spotifyAuthorizeWebhookMsg whUnknown pendingStore).out) ∧
    (∀ userId, (spotifyAuthorizeWebhookMsg whUnknown pendingStore).bkt.lookup (authTokenKey userId)
      = pendingStore.lookup (authTokenKey userId)) ∧
    (spotifyAuthorizeWebhookMsg whUnknown pendingStore).out =
      [.respond [] ⟨str "Sorry! There was an error logging you into Spotify.", false⟩] :=
  ⟨by decide, by decide,
    unknown_state_rejected whUnknown (str "S1") [] pendingStore (by decide) (by decide)
      (by decide)⟩

/-- C9: a webhook request without a `state` parameter is dropped: the store is
unchanged, nothing is sent, no token exchange is attempted, and the loop goes on
with the next message. -/
theorem missing_state_dropped (whMsg : WebhookMsg)
    (hq : whMsg.Request.Query (str "state") = none) :
    (∀ store, spotifyAuthorizeWebhookMsg whMsg store = ⟨store, [], .nil⟩) ∧
    (∀ rest s, spotifyAuthorizeWebhook (whMsg :: rest) s = spotifyAuthorizeWebhook rest s) := by
  have h1 : ∀ store, spotifyAuthorizeWebhookMsg whMsg store = ⟨store, [], .nil⟩ := by
    intro store
    simp [spotifyAuthorizeWebhookMsg, hq]
  refine ⟨h1, ?_⟩
  intro rest s
  simp [spotifyAuthorizeWebhook, h1, Sys.after]

/-- Witness of C9: a redirect that only carries `code`. -/
theorem missing_state_dropped_witness :
    whNoState.Request.Query (str "state") = none ∧
    (∀ store, spotifyAuthorizeWebhookMsg whNoState store = ⟨store, [], .nil⟩) ∧
    (∀ rest s, spotifyAuthorizeWebhook (whNoState :: rest) s = spotifyAuthorizeWebhook rest s) :=
  ⟨by decide, missing_state_dropped whNoState (by decide)⟩

/-- C10, the code at a failing input: a token that expires 1500000000 seconds after
the epoch is stored with `ExpiresAt = 1500000000000000000` (nanoseconds), and
`GetOauthToken` reads that number as seconds, so the reconstructed `Expiry` is
another instant. -/
theorem expiry_unit_mismatch :
    sampleToken.Expiry = ⟨1500000000, 0⟩ ∧
    (tokenRecord sampleToken).Token.map (fun t => t.ExpiresAt) = some 1500000000000000000 ∧
    (tokenRecord sampleToken).GetOauthToken =
      some ⟨sampleToken.AccessToken, sampleToken.TokenType, sampleToken.RefreshToken,
        ⟨1500000000000000000, 0⟩⟩ ∧
    (tokenRecord sampleToken).GetOauthToken.map (fun t => t.Expiry.sec)
      ≠ some sampleToken.Expiry.sec := by
  decide

end Spotify
